import Mathlib

/-! # czds-status: request resolution and presentation pipeline

A shallow embedding of `cmd/czds-status/status.go` and the properties of its
report driver and formatter.

The program talks to three things outside itself: the standard output stream,
the standard logger (standard error), and the `czds.Client` of the access
service.  They are modelled by an explicit `World` that is threaded through a
small program monad `Prog`, in which `os.Exit` and a run-time panic are further
kinds of outcome besides returning.
-/

namespace Czds

/-! ## `time.Time` and `Format(time.ANSIC)` -/

/-- The part of a Go `time.Time` that `Unix()` and `Format(time.ANSIC)` read:
the instant in seconds since the Unix epoch (what `t.Unix()` returns) and the
offset of the value's location, in seconds east of UTC.  The sub-second part is
not shown by the ANSIC layout and is left out.  The seconds are an unbounded
integer: the calendar date is computed without the wrap-around of 64-bit
arithmetic. -/
structure Time where
  sec : Int
  offset : Int
deriving DecidableEq, Repr

/-- Go `t.Unix()`. -/
def Time.Unix (t : Time) : Int := t.sec

/-- Three-letter weekday names of package `time`, Sunday first. -/
def shortDayNames : List String :=
  ["Sun", "Mon", "Tue", "Wed", "Thu", "Fri", "Sat"]

/-- Three-letter month names of package `time`, January first. -/
def shortMonthNames : List String :=
  ["Jan", "Feb", "Mar", "Apr", "May", "Jun", "Jul", "Aug", "Sep", "Oct", "Nov", "Dec"]

/-- Left-pad `s` with the character `c` up to `width` characters. -/
def leftPad (c : Char) (width : Nat) (s : String) : String :=
  String.mk (List.replicate (width - s.length) c) ++ s

/-- Go `appendInt(b, x, width)` of package `time`: decimal digits of `x`,
zero-padded to `width`, with a leading minus sign for a negative `x`. -/
def appendInt (x : Int) (width : Nat) : String :=
  if x < 0 then "-" ++ leftPad '0' width (Nat.repr x.natAbs)
  else leftPad '0' width (Nat.repr x.natAbs)

/-- Calendar date `(year, month 1..12, day 1..31)` of the day that lies `days`
days after 1970-01-01 in the proleptic Gregorian calendar, which is the
calendar package `time` computes in. -/
def civilFromDays (days : Int) : Int × Int × Int :=
  let z := days + 719468
  let era := z / 146097
  let doe := z - era * 146097
  let yoe := (doe - doe / 1460 + doe / 36524 - doe / 146096) / 365
  let y := yoe + era * 400
  let doy := doe - (365 * yoe + yoe / 4 - yoe / 100)
  let mp := (5 * doy + 2) / 153
  let d := doy - (153 * mp + 2) / 5 + 1
  let m := if mp < 10 then mp + 3 else mp - 9
  (if m ≤ 2 then y + 1 else y, m, d)

/-- Go `t.Format(time.ANSIC)`, the layout `"Mon Jan _2 15:04:05 2006"`:
weekday, month, day of month padded with a space, zero-padded clock, year
zero-padded to four digits; all taken in the value's own location. -/
def Time.FormatANSIC (t : Time) : String :=
  let abs := t.sec + t.offset
  let days := abs / 86400
  let secs := abs % 86400
  let ymd := civilFromDays days
  shortDayNames.getD ((days + 4) % 7).toNat "" ++ " " ++
  shortMonthNames.getD (ymd.2.1 - 1).toNat "" ++ " " ++
  leftPad ' ' 2 (Nat.repr ymd.2.2.toNat) ++ " " ++
  appendInt (secs / 3600) 2 ++ ":" ++
  appendInt (secs % 3600 / 60) 2 ++ ":" ++
  appendInt (secs % 60) 2 ++ " " ++
  appendInt ymd.1 4

/-! ## Data returned by the access service (package `czds`) -/

/-- The `czds.TLDStatus` value a `czds.RequestsInfo` points to, as far as it is
printed. -/
structure TLDStatus where
  TLD : String
  ULabel : String
deriving DecidableEq, Repr

/-- One entry of `czds.RequestsInfo.History`. -/
structure HistoryEntry where
  Timestamp : Time
  Action : String
deriving DecidableEq, Repr

/-- The fields of `czds.RequestsInfo` that `printRequestInfo` reads.  `TLD` is
a pointer (`*czds.TLDStatus`) in the code: `none` is the nil pointer, which is
what a record without a TLD decodes to. -/
structure RequestsInfo where
  RequestID : String
  TLD : Option TLDStatus
  Status : String
  Created : Time
  LastUpdated : Time
  Expired : Time
  AutoRenew : Bool
  Extensible : Bool
  ExtensionInProcess : Bool
  Cancellable : Bool
  RequestIP : String
  FtpIps : List String
  Reason : String
  History : List HistoryEntry
deriving DecidableEq, Repr

/-- The fields of `czds.Request` that `printRequest` reads. -/
structure Request where
  TLD : String
  RequestID : String
  ULabel : String
  Status : String
  Created : Time
  LastUpdated : Time
  Expired : Time
  SFTP : Bool
deriving DecidableEq, Repr

/-- The status filter handed to `GetAllRequests`.  The program only ever names
`czds.RequestAll`; every other value of the package is `other`. -/
inductive RequestsFilter where
  | RequestAll
  | other (status : String)
deriving DecidableEq, Repr

/-- The behaviour of a `czds.Client` as this program sees it: each method is a
function from its argument to either an error (its message) or a value.  The
record pointer `GetRequestInfo` returns without an error is taken to be
non-nil; the `TLD` pointer inside the record may be nil. -/
structure Client where
  AuthURL : String
  Authenticate : Except String Unit
  GetZoneRequestID : String → Except String String
  GetRequestInfo : String → Except String RequestsInfo
  GetAllRequests : RequestsFilter → Except String (List Request)

/-! ## The world outside the program -/

/-- A method call on the client. -/
inductive Call where
  | Authenticate
  | GetZoneRequestID (zone : String)
  | GetRequestInfo (id : String)
  | GetAllRequests (filter : RequestsFilter)
deriving DecidableEq, Repr

/-- What the program has done so far: the writes to standard output (one entry
per `fmt.Printf` / `fmt.Println`), the messages handed to the standard logger
and to `flag.PrintDefaults` (one entry each, without the time stamp the logger puts in front),
and the client calls in the order they were made, each with whether it
succeeded. -/
structure World where
  stdout : List String
  stderr : List String
  calls : List (Call × Bool)
deriving DecidableEq, Repr

/-- The world at process start. -/
def World.init : World := ⟨[], [], []⟩

/-- How a piece of the program ends: it returns a value, the process exits
with a status (`os.Exit`), or the goroutine panics with a run-time error. -/
inductive Outcome (α : Type) where
  | ret (a : α) (w : World)
  | exit (code : Nat) (w : World)
  | panic (msg : String) (w : World)

/-- A piece of the program: a function of the world. -/
def Prog (α : Type) : Type := World → Outcome α

/-- Sequencing: an exit or a panic ends the program, dropping what would
follow. -/
def Prog.bind {α β : Type} (p : Prog α) (k : α → Prog β) : Prog β := fun w =>
  match p w with
  | .ret a w1 => k a w1
  | .exit code w1 => .exit code w1
  | .panic msg w1 => .panic msg w1

instance : Monad Prog where
  pure a := fun w => .ret a w
  bind := Prog.bind

/-- The message of the run-time panic on a nil pointer dereference. -/
def nilDereference : String :=
  "panic: runtime error: invalid memory address or nil pointer dereference"

/-- Go `p.field` on a pointer `p`: the value pointed to, or the run-time panic
when `p` is nil. -/
def deref {α : Type} : Option α → Prog α
  | some a => pure a
  | none => fun w => .panic nilDereference w

/-- Go `os.Exit(code)`. -/
def osExit {α : Type} (code : Nat) : Prog α := fun w => .exit code w

/-- Go `fmt.Printf` / `fmt.Println` once the text is formatted: one write to
standard output. -/
def fmtPrint (s : String) : Prog Unit := fun w =>
  .ret () { w with stdout := w.stdout ++ [s] }

/-- Go `log.Printf` once the message is formatted. -/
def logPrintf (msg : String) : Prog Unit := fun w =>
  .ret () { w with stderr := w.stderr ++ [msg] }

/-- Go `log.Fatal(err)`: log the error, then `os.Exit(1)`. -/
def logFatal {α : Type} (err : String) : Prog α := do
  logPrintf err
  osExit 1

/-- Text of `flag.PrintDefaults()`: the usage lines of the six declared flags. -/
def flagDefaults : String :=
  "  -id string\n    \tID of specific zone request to lookup, defaults to printing all\n" ++
  "  -password string\n    \tpassword to authenticate with\n" ++
  "  -username string\n    \tusername to authenticate with\n" ++
  "  -verbose\n    \tenable verbose logging\n" ++
  "  -version\n    \tprint version and exit\n" ++
  "  -zone string\n    \tsame as -id, but prints the request by zone name\n"

/-- Go `flag.PrintDefaults()`. -/
def flagPrintDefaults : Prog Unit := logPrintf flagDefaults

/-- Record a client call and its result in the world, and hand the result on. -/
def call {α : Type} (c : Call) (r : Except String α) : Prog (Except String α) := fun w =>
  .ret r { w with calls := w.calls ++ [(c, r.isOk)] }

/-- Go `for _, x := range xs { body }`. -/
def forRange {α : Type} : List α → (α → Prog Unit) → Prog Unit
  | [], _ => pure ()
  | x :: xs, body => do
    body x
    forRange xs body

/-! ## The program -/

/-- The command-line flags after `flag.Parse()`. -/
structure Flags where
  username : String
  password : String
  verbose : Bool
  id : String
  zone : String
  showVersion : Bool
deriving DecidableEq, Repr

/-- Go `%t`. -/
def fmtBool (b : Bool) : String := if b then "true" else "false"

/-- Go default formatting of a `[]string` operand (`%v`): the elements
separated by single spaces, in square brackets. -/
def fmtStrings (xs : List String) : String := "[" ++ " ".intercalate xs ++ "]"

/-- Source `v`: log only in verbose mode. -/
def v (f : Flags) (msg : String) : Prog Unit := do
  if f.verbose then
    logPrintf msg

/-- Source `checkFlags`, after `flag.Parse()`.  `len(s) == 0` is stated on the
character count, which is zero exactly when the byte count is. -/
def checkFlags (version : String) (f : Flags) : Prog Unit := do
  if f.showVersion then
    fmtPrint ("Version: " ++ version ++ "\n")
    osExit 0
  let mut flagError := false
  if f.username.length = 0 then
    logPrintf "must pass username"
    flagError := true
  if f.password.length = 0 then
    logPrintf "must pass password"
    flagError := true
  if flagError then
    flagPrintDefaults
    osExit 1

/-- Source `expiredTime`: the ANSIC rendering when `t.Unix() > 0`, otherwise
the empty string. -/
def expiredTime (t : Time) : String :=
  if t.Unix > 0 then t.FormatANSIC else ""

/-- Source `printHeader`. -/
def printHeader : Prog Unit :=
  fmtPrint "TLD\tID\tUnicodeTLD\tStatus\tCreated\tUpdated\tExpires\tSFTP\n"

/-- Source `printRequest`. -/
def printRequest (request : Request) : Prog Unit :=
  fmtPrint (request.TLD ++ "\t" ++ request.RequestID ++ "\t" ++ request.ULabel ++ "\t" ++
    request.Status ++ "\t" ++ request.Created.FormatANSIC ++ "\t" ++
    request.LastUpdated.FormatANSIC ++ "\t" ++ expiredTime request.Expired ++ "\t" ++
    fmtBool request.SFTP ++ "\n")

/-- Source `printRequestInfo`.  The operands `info.TLD.TLD` and
`info.TLD.ULabel` are evaluated, dereferencing `info.TLD`, before the second
`Printf` writes. -/
def printRequestInfo (info : RequestsInfo) : Prog Unit := do
  fmtPrint ("ID:\t" ++ info.RequestID ++ "\n")
  let tld ← deref info.TLD
  fmtPrint ("TLD:\t" ++ tld.TLD ++ " (" ++ tld.ULabel ++ ")\n")
  fmtPrint ("Status:\t" ++ info.Status ++ "\n")
  fmtPrint ("Created:\t" ++ info.Created.FormatANSIC ++ "\n")
  fmtPrint ("Updated:\t" ++ info.LastUpdated.FormatANSIC ++ "\n")
  fmtPrint ("Expires:\t" ++ expiredTime info.Expired ++ "\n")
  fmtPrint ("AutoRenew:\t" ++ fmtBool info.AutoRenew ++ "\n")
  fmtPrint ("Extensible:\t" ++ fmtBool info.Extensible ++ "\n")
  fmtPrint ("ExtensionInProcess:\t" ++ fmtBool info.ExtensionInProcess ++ "\n")
  fmtPrint ("Cancellable:\t" ++ fmtBool info.Cancellable ++ "\n")
  fmtPrint ("Request IP:\t" ++ info.RequestIP ++ "\n")
  fmtPrint ("FTP IPs:\t" ++ " " ++ fmtStrings info.FtpIps ++ "\n")
  fmtPrint ("Reason:\t" ++ info.Reason ++ "\n")
  fmtPrint "History:\n"
  forRange info.History fun event =>
    fmtPrint ("\t" ++ event.Timestamp.FormatANSIC ++ "\t" ++ event.Action ++ "\n")

/-- Source `listAll`. -/
def listAll (f : Flags) (client : Client) : Prog Unit := do
  let requests ← match ← call (.GetAllRequests .RequestAll) (client.GetAllRequests .RequestAll) with
    | .error err => logFatal err
    | .ok requests => pure requests
  v f ("Total requests: " ++ toString requests.length)
  if requests.length > 0 then
    printHeader
    forRange requests fun request =>
      printRequest request

/-- Source `main`.  `NewClient` is `czds.NewClient`; `client.SetLogger` only
changes what the client itself logs and is not part of the model. -/
def main (NewClient : String → String → Client) (version : String) (f : Flags) :
    Prog Unit := do
  checkFlags version f
  let client := NewClient f.username f.password
  v f ("Authenticating to " ++ client.AuthURL)
  match ← call .Authenticate client.Authenticate with
    | .error err => logFatal err
    | .ok _ => pure ()
  let mut id := f.id
  if f.zone ≠ "" then
    match ← call (.GetZoneRequestID f.zone) (client.GetZoneRequestID f.zone) with
      | .error err => logFatal err
      | .ok zoneID => id := zoneID
  if id = "" then
    listAll f client
    return
  let info ← match ← call (.GetRequestInfo id) (client.GetRequestInfo id) with
    | .error err => logFatal err
    | .ok info => pure info
  printRequestInfo info

/-- The whole process: `main` from the initial world.  Returning from `main` is
exit status 0; an unrecovered panic prints its message to standard error and
ends the process with exit status 2. -/
def run (NewClient : String → String → Client) (version : String) (f : Flags) :
    Nat × World :=
  match main NewClient version f World.init with
  | .ret _ w => (0, w)
  | .exit code w => (code, w)
  | .panic msg w => (2, { w with stderr := w.stderr ++ [msg] })

/-! ## Auxiliary definitions: views of the output and sample data -/

/-- What `v` adds to the log. -/
def vLog (f : Flags) (msg : String) : List String := if f.verbose then [msg] else []

/-- The messages `checkFlags` logs for missing credentials. -/
def flagErrors (f : Flags) : List String :=
  (if f.username = "" then ["must pass username"] else []) ++
  (if f.password = "" then ["must pass password"] else [])

/-- The text `printRequest` writes for one summary. -/
def requestRow (request : Request) : String :=
  request.TLD ++ "\t" ++ request.RequestID ++ "\t" ++ request.ULabel ++ "\t" ++
    request.Status ++ "\t" ++ request.Created.FormatANSIC ++ "\t" ++
    request.LastUpdated.FormatANSIC ++ "\t" ++ expiredTime request.Expired ++ "\t" ++
    fmtBool request.SFTP ++ "\n"

/-- The text `printRequestInfo` writes for one history event. -/
def historyRow (event : HistoryEntry) : String :=
  "\t" ++ event.Timestamp.FormatANSIC ++ "\t" ++ event.Action ++ "\n"

/-- The writes of `printRequestInfo`, in order, for a record whose `TLD`
points to `tld`. -/
def infoLines (info : RequestsInfo) (tld : TLDStatus) : List String :=
  [ "ID:\t" ++ info.RequestID ++ "\n",
    "TLD:\t" ++ tld.TLD ++ " (" ++ tld.ULabel ++ ")\n",
    "Status:\t" ++ info.Status ++ "\n",
    "Created:\t" ++ info.Created.FormatANSIC ++ "\n",
    "Updated:\t" ++ info.LastUpdated.FormatANSIC ++ "\n",
    "Expires:\t" ++ expiredTime info.Expired ++ "\n",
    "AutoRenew:\t" ++ fmtBool info.AutoRenew ++ "\n",
    "Extensible:\t" ++ fmtBool info.Extensible ++ "\n",
    "ExtensionInProcess:\t" ++ fmtBool info.ExtensionInProcess ++ "\n",
    "Cancellable:\t" ++ fmtBool info.Cancellable ++ "\n",
    "Request IP:\t" ++ info.RequestIP ++ "\n",
    "FTP IPs:\t" ++ " " ++ fmtStrings info.FtpIps ++ "\n",
    "Reason:\t" ++ info.Reason ++ "\n",
    "History:\n" ] ++ info.History.map historyRow

/-- The writes of `listAll` for a successful listing. -/
def listLines (requests : List Request) : List String :=
  if requests.length > 0 then
    "TLD\tID\tUnicodeTLD\tStatus\tCreated\tUpdated\tExpires\tSFTP\n" :: requests.map requestRow
  else []

/-- How the run ends once the record is fetched: the report and exit status 0,
or, for a nil `TLD`, the identifier line, the panic message and exit status 2. -/
def report (info : RequestsInfo) (w : World) : Nat × World :=
  match info.TLD with
  | some tld => (0, { w with stdout := w.stdout ++ infoLines info tld })
  | none =>
    (2, { w with
      stdout := w.stdout ++ ["ID:\t" ++ info.RequestID ++ "\n"]
      stderr := w.stderr ++ [nilDereference] })

/-- The last stage of `main`, once the identifier is settled: the listing when
it is empty, the single-record report otherwise. -/
def finish (f : Flags) (client : Client) (id : String) (w : World) : Nat × World :=
  if id = "" then
    match client.GetAllRequests .RequestAll with
    | .error err =>
      (1, { w with
        stderr := w.stderr ++ [err]
        calls := w.calls ++ [(.GetAllRequests .RequestAll, false)] })
    | .ok requests =>
      (0, { w with
        stdout := w.stdout ++ listLines requests
        stderr := w.stderr ++ vLog f ("Total requests: " ++ toString requests.length)
        calls := w.calls ++ [(.GetAllRequests .RequestAll, true)] })
  else
    match client.GetRequestInfo id with
    | .error err =>
      (1, { w with
        stderr := w.stderr ++ [err]
        calls := w.calls ++ [(.GetRequestInfo id, false)] })
    | .ok info => report info { w with calls := w.calls ++ [(.GetRequestInfo id, true)] }

/-- Number of newline characters in a text. -/
def newlines (s : String) : Nat := s.data.count '\n'

/-- The writes a piece of the program makes to standard output when started in
the initial world. -/
def stdoutOf {α : Type} (p : Prog α) : List String :=
  match p World.init with
  | .ret _ w => w.stdout
  | .exit _ w => w.stdout
  | .panic _ w => w.stdout

/-- A record all of whose timestamps are the Unix epoch. -/
def epochInfo : RequestsInfo :=
  { RequestID := "R1", TLD := some ⟨"example", "example"⟩, Status := "Approved",
    Created := ⟨0, 0⟩, LastUpdated := ⟨0, 0⟩, Expired := ⟨0, 0⟩,
    AutoRenew := true, Extensible := false, ExtensionInProcess := false,
    Cancellable := false, RequestIP := "192.0.2.1", FtpIps := [], Reason := "",
    History := [] }

/-- A summary all of whose timestamps are the Unix epoch. -/
def epochRequest : Request :=
  { TLD := "example", RequestID := "R1", ULabel := "example", Status := "Approved",
    Created := ⟨0, 0⟩, LastUpdated := ⟨0, 0⟩, Expired := ⟨0, 0⟩, SFTP := false }

/-- A client whose domain lookup succeeds with the empty identifier. -/
def emptyIdClient : Client :=
  { AuthURL := "https://account-api.icann.org/api/authenticate"
    Authenticate := .ok ()
    GetZoneRequestID := fun _ => .ok ""
    GetRequestInfo := fun _ => .error "request not found"
    GetAllRequests := fun _ => .ok [epochRequest] }

/-- A summary whose status text holds a newline character. -/
def newlineRequest : Request :=
  { TLD := "com", RequestID := "R1", ULabel := "com", Status := "x\ny",
    Created := ⟨1700000000, 0⟩, LastUpdated := ⟨1700000000, 0⟩, Expired := ⟨0, 0⟩,
    SFTP := false }

/-- Three summaries, as a listing might return them. -/
def threeRequests : List Request :=
  [ { TLD := "com", RequestID := "R1", ULabel := "com", Status := "Approved",
      Created := ⟨1700000000, 0⟩, LastUpdated := ⟨1700000000, 0⟩, Expired := ⟨0, 0⟩,
      SFTP := false },
    { TLD := "net", RequestID := "R2", ULabel := "net", Status := "Pending",
      Created := ⟨1700000000, 0⟩, LastUpdated := ⟨1700000000, 0⟩, Expired := ⟨0, 0⟩,
      SFTP := true },
    { TLD := "org", RequestID := "R3", ULabel := "org", Status := "Denied",
      Created := ⟨1700000000, 0⟩, LastUpdated := ⟨1700000000, 0⟩, Expired := ⟨0, 0⟩,
      SFTP := false } ]

/-- A client that knows the zone `example` as request `R1`, whose record is
`epochInfo`, and that lists `requests`. -/
def sampleClient (requests : List Request) : Client :=
  { AuthURL := "https://account-api.icann.org/api/authenticate"
    Authenticate := .ok ()
    GetZoneRequestID := fun zone =>
      if zone = "example" then .ok "R1" else .error "no request found"
    GetRequestInfo := fun id =>
      if id = "R1" then .ok epochInfo else .error "request not found"
    GetAllRequests := fun _ => .ok requests }

/-- A client that rejects the credentials. -/
def badLoginClient : Client :=
  { sampleClient [] with Authenticate := .error "bad login" }

/-- Valid credentials with the given selectors. -/
def sampleFlags (id zone : String) : Flags :=
  { username := "user", password := "secret", verbose := false, id := id, zone := zone,
    showVersion := false }

/-- A record with expiry 0, auto-renew set, two transfer addresses and two
history events. -/
def sampleInfo : RequestsInfo :=
  { epochInfo with
    Created := ⟨1700000000, 0⟩, LastUpdated := ⟨1700000000, 0⟩
    FtpIps := ["192.0.2.10", "198.51.100.7"]
    History := [⟨⟨1700000000, 0⟩, "Submitted"⟩, ⟨⟨1700000001, 0⟩, "Approved"⟩] }

/-- A record whose `TLD` pointer is nil. -/
def nilTLDInfo : RequestsInfo := { epochInfo with TLD := none }

/-- A client whose record for every identifier has a nil `TLD`. -/
def nilTLDClient : Client :=
  { sampleClient [] with GetRequestInfo := fun _ => .ok nilTLDInfo }

/-- A client that knows request `R1` and lists one summary, and whose domain
lookup succeeds with the empty identifier. -/
def emptyLookupClient : Client :=
  { sampleClient [epochRequest] with GetZoneRequestID := fun _ => .ok "" }

/-! ## Stepping lemmas for the program monad -/

theorem bind_apply {α β : Type} (p : Prog α) (k : α → Prog β) (w : World) :
    (p >>= k) w = match p w with
      | .ret a w1 => k a w1
      | .exit code w1 => .exit code w1
      | .panic msg w1 => .panic msg w1 := rfl

theorem pure_apply {α : Type} (a : α) (w : World) :
    (pure a : Prog α) w = .ret a w := rfl

theorem fmtPrint_apply (s : String) (w : World) :
    fmtPrint s w = .ret () { w with stdout := w.stdout ++ [s] } := rfl

theorem logPrintf_apply (s : String) (w : World) :
    logPrintf s w = .ret () { w with stderr := w.stderr ++ [s] } := rfl

theorem osExit_apply {α : Type} (code : Nat) (w : World) :
    (osExit code : Prog α) w = .exit code w := rfl

theorem logFatal_apply {α : Type} (err : String) (w : World) :
    (logFatal err : Prog α) w = .exit 1 { w with stderr := w.stderr ++ [err] } := rfl

theorem call_apply {α : Type} (c : Call) (r : Except String α) (w : World) :
    call c r w = .ret r { w with calls := w.calls ++ [(c, r.isOk)] } := rfl

theorem v_apply (f : Flags) (msg : String) (w : World) :
    v f msg w = .ret () { w with stderr := w.stderr ++ vLog f msg } := by
  unfold v vLog
  cases f.verbose <;> simp [pure_apply, logPrintf_apply]

theorem forRange_fmtPrint {α : Type} (g : α → String) (xs : List α) (w : World) :
    forRange xs (fun x => fmtPrint (g x)) w
      = .ret () { w with stdout := w.stdout ++ xs.map g } := by
  induction xs generalizing w with
  | nil => simp [forRange, pure_apply]
  | cons x xs ih => simp [forRange, bind_apply, fmtPrint_apply, ih]

/-! ## The functions of the program as functions of the world -/

theorem length_eq_zero_iff (s : String) : s.length = 0 ↔ s = "" := by
  constructor
  · intro h
    have : s.data = [] := List.length_eq_zero.mp h
    exact String.ext this
  · intro h
    subst h
    rfl

theorem checkFlags_apply (version : String) (f : Flags) (w : World) :
    checkFlags version f w =
      if f.showVersion then
        .exit 0 { w with stdout := w.stdout ++ ["Version: " ++ version ++ "\n"] }
      else if f.username = "" ∨ f.password = "" then
        .exit 1 { w with stderr := w.stderr ++ (flagErrors f ++ [flagDefaults]) }
      else .ret () w := by
  unfold checkFlags flagErrors flagPrintDefaults
  by_cases hv : f.showVersion = true
  · simp [hv, bind_apply, fmtPrint_apply, osExit_apply]
  · by_cases hu : f.username = "" <;> by_cases hp : f.password = "" <;>
      simp [hv, hu, hp, length_eq_zero_iff, bind_apply, pure_apply, logPrintf_apply,
        osExit_apply]

theorem printRequest_apply (request : Request) (w : World) :
    printRequest request w = .ret () { w with stdout := w.stdout ++ [requestRow request] } :=
  rfl

theorem printRequestInfo_apply (info : RequestsInfo) (w : World) :
    printRequestInfo info w =
      match info.TLD with
      | some tld => .ret () { w with stdout := w.stdout ++ infoLines info tld }
      | none => .panic nilDereference
          { w with stdout := w.stdout ++ ["ID:\t" ++ info.RequestID ++ "\n"] } := by
  unfold printRequestInfo infoLines
  simp only [bind_apply, fmtPrint_apply]
  rw [show (fun event : HistoryEntry => fmtPrint ("\t" ++ event.Timestamp.FormatANSIC ++ "\t"
      ++ event.Action ++ "\n")) = fun event => fmtPrint (historyRow event) from rfl]
  cases info.TLD with
  | none => rfl
  | some tld => simp [deref, pure_apply, forRange_fmtPrint]

theorem report_calls (info : RequestsInfo) (w : World) : (report info w).2.calls = w.calls := by
  unfold report
  cases info.TLD <;> rfl

theorem listAll_apply (f : Flags) (client : Client) (w : World) :
    listAll f client w =
      match client.GetAllRequests .RequestAll with
      | .error err =>
        .exit 1 { w with
          stderr := w.stderr ++ [err]
          calls := w.calls ++ [(.GetAllRequests .RequestAll, false)] }
      | .ok requests =>
        .ret () { w with
          stdout := w.stdout ++ listLines requests
          stderr := w.stderr ++ vLog f ("Total requests: " ++ toString requests.length)
          calls := w.calls ++ [(.GetAllRequests .RequestAll, true)] } := by
  unfold listAll listLines printHeader
  rw [show (fun request : Request => printRequest request) = fun request =>
      fmtPrint (requestRow request) from rfl]
  cases h : client.GetAllRequests .RequestAll with
  | error err => simp [bind_apply, call_apply, logFatal_apply, Except.isOk, Except.toBool]
  | ok requests =>
    by_cases hl : requests.length > 0
    · simp [bind_apply, call_apply, pure_apply, v_apply, fmtPrint_apply, forRange_fmtPrint,
        hl, Except.isOk, Except.toBool]
    · simp [bind_apply, call_apply, pure_apply, v_apply, hl, Except.isOk, Except.toBool]

/-- The run of the whole program as a decision tree over the flags and the
client's answers. -/
theorem run_eq (N : String → String → Client) (version : String) (f : Flags) :
    run N version f =
      if f.showVersion then (0, ⟨["Version: " ++ version ++ "\n"], [], []⟩)
      else if f.username = "" ∨ f.password = "" then
        (1, ⟨[], flagErrors f ++ [flagDefaults], []⟩)
      else
        match (N f.username f.password).Authenticate with
        | .error err =>
          (1, ⟨[], vLog f ("Authenticating to " ++ (N f.username f.password).AuthURL) ++ [err],
            [(.Authenticate, false)]⟩)
        | .ok _ =>
          if f.zone ≠ "" then
            match (N f.username f.password).GetZoneRequestID f.zone with
            | .error err =>
              (1, ⟨[],
                vLog f ("Authenticating to " ++ (N f.username f.password).AuthURL) ++ [err],
                [(.Authenticate, true), (.GetZoneRequestID f.zone, false)]⟩)
            | .ok zoneID =>
              finish f (N f.username f.password) zoneID
                ⟨[], vLog f ("Authenticating to " ++ (N f.username f.password).AuthURL),
                  [(.Authenticate, true), (.GetZoneRequestID f.zone, true)]⟩
          else
            finish f (N f.username f.password) f.id
              ⟨[], vLog f ("Authenticating to " ++ (N f.username f.password).AuthURL),
                [(.Authenticate, true)]⟩ := by
  unfold run main
  simp only [bind_apply, checkFlags_apply, World.init]
  by_cases hv : f.showVersion = true
  · simp [hv]
  by_cases hc : f.username = "" ∨ f.password = ""
  · simp [hv, hc]
  simp only [hv, hc, if_false, Bool.false_eq_true, v_apply, call_apply]
  cases ha : (N f.username f.password).Authenticate with
  | error err => simp [logFatal_apply, bind_apply, Except.isOk, Except.toBool]
  | ok u =>
    by_cases hz : f.zone = ""
    · simp only [hz, ne_eq, not_true_eq_false, if_false, pure_apply, bind_apply, finish]
      by_cases hi : f.id = ""
      · simp only [hi, if_true, listAll_apply, bind_apply]
        cases (N f.username f.password).GetAllRequests .RequestAll <;>
          simp [Except.isOk, Except.toBool, pure_apply]
      · simp only [hi, if_false, call_apply, bind_apply, pure_apply]
        cases (N f.username f.password).GetRequestInfo f.id with
        | error err => simp [Except.isOk, Except.toBool, logFatal_apply, bind_apply]
        | ok info =>
          cases hT : info.TLD <;>
            simp [Except.isOk, Except.toBool, pure_apply, bind_apply, printRequestInfo_apply,
              report, hT]
    · simp only [hz, ne_eq, not_false_eq_true, if_true, pure_apply, bind_apply, call_apply]
      cases hl : (N f.username f.password).GetZoneRequestID f.zone with
      | error err => simp [logFatal_apply, bind_apply, Except.isOk, Except.toBool]
      | ok zoneID =>
        simp only [finish, pure_apply, bind_apply]
        by_cases hi : zoneID = ""
        · simp only [hi, if_true, listAll_apply, bind_apply]
          cases (N f.username f.password).GetAllRequests .RequestAll <;>
            simp [Except.isOk, Except.toBool, pure_apply]
        · simp only [hi, if_false, call_apply, bind_apply, pure_apply]
          cases (N f.username f.password).GetRequestInfo zoneID with
          | error err => simp [Except.isOk, Except.toBool, logFatal_apply, bind_apply]
          | ok info =>
            cases hT : info.TLD <;>
              simp [Except.isOk, Except.toBool, pure_apply, bind_apply, printRequestInfo_apply,
                report, hT]

/-! ## Newline characters in the formatted text -/

theorem newlines_append (a b : String) : newlines (a ++ b) = newlines a + newlines b := by
  simp [newlines, String.data_append, List.count_append]

theorem newlines_join (xs : List String) :
    newlines (String.join xs) = (xs.map newlines).sum := by
  induction xs with
  | nil => rfl
  | cons x xs ih =>
    simp only [newlines, String.data_join, List.map_cons, List.flatten_cons, List.count_append,
      List.sum_cons] at ih ⊢
    omega

theorem digitChar_ne_newline : ∀ d < 10, Nat.digitChar d ≠ '\n' := by
  decide

theorem count_toDigitsCore (fuel n : Nat) (ds : List Char) :
    (Nat.toDigitsCore 10 fuel n ds).count '\n' = ds.count '\n' := by
  induction fuel generalizing n ds with
  | zero => rfl
  | succ fuel ih =>
    have hd : (Nat.digitChar (n % 10) == '\n') = false := by
      simpa using digitChar_ne_newline (n % 10) (Nat.mod_lt n (by decide))
    simp only [Nat.toDigitsCore]
    split
    · simp [List.count_cons, hd]
    · rw [ih]
      simp [List.count_cons, hd]

theorem newlines_repr (n : Nat) : newlines (Nat.repr n) = 0 := by
  simp [newlines, Nat.repr, Nat.toDigits, List.asString, count_toDigitsCore]

theorem newlines_leftPad (c : Char) (hc : c ≠ '\n') (width : Nat) (s : String) :
    newlines (leftPad c width s) = newlines s := by
  have : (c == '\n') = false := by simpa using hc
  simp [leftPad, newlines, String.data_append, List.count_append, List.count_replicate, this]

theorem newlines_appendInt (x : Int) (width : Nat) : newlines (appendInt x width) = 0 := by
  unfold appendInt
  split
  · rw [newlines_append, newlines_leftPad _ (by decide), newlines_repr]
    rfl
  · rw [newlines_leftPad _ (by decide), newlines_repr]

theorem newlines_dayName (i : Nat) : newlines (shortDayNames.getD i "") = 0 := by
  rcases i with _ | _ | _ | _ | _ | _ | _ | i <;> rfl

theorem newlines_monthName (i : Nat) : newlines (shortMonthNames.getD i "") = 0 := by
  rcases i with _ | _ | _ | _ | _ | _ | _ | _ | _ | _ | _ | _ | i <;> rfl

theorem newlines_FormatANSIC (t : Time) : newlines t.FormatANSIC = 0 := by
  unfold Time.FormatANSIC
  simp only [newlines_append, newlines_dayName, newlines_monthName, newlines_appendInt,
    newlines_leftPad _ (show ' ' ≠ '\n' by decide), newlines_repr]
  rfl

theorem newlines_expiredTime (t : Time) : newlines (expiredTime t) = 0 := by
  unfold expiredTime
  split
  · exact newlines_FormatANSIC t
  · rfl

theorem newlines_fmtBool (b : Bool) : newlines (fmtBool b) = 0 := by
  cases b <;> rfl

theorem newlines_requestRow (r : Request) :
    newlines (requestRow r) =
      newlines r.TLD + newlines r.RequestID + newlines r.ULabel + newlines r.Status + 1 := by
  unfold requestRow
  simp only [newlines_append, newlines_FormatANSIC, newlines_expiredTime, newlines_fmtBool]
  have ht : newlines "\t" = 0 := rfl
  have hn : newlines "\n" = 1 := rfl
  omega

/-! ## The formatter -/

/-- The model of `Format(time.ANSIC)` on known instants: the Unix epoch, the
reference time of package `time` (15:04:05 on 2 January 2006 at UTC-7), a leap
day, the zero `time.Time`, and one second past the epoch seen from UTC-5. -/
theorem FormatANSIC_known_instants :
    (⟨0, 0⟩ : Time).FormatANSIC = "Thu Jan  1 00:00:00 1970" ∧
    (⟨1136239445, -25200⟩ : Time).FormatANSIC = "Mon Jan  2 15:04:05 2006" ∧
    (⟨951825599, 0⟩ : Time).FormatANSIC = "Tue Feb 29 11:59:59 2000" ∧
    (⟨-62135596800, 0⟩ : Time).FormatANSIC = "Mon Jan  1 00:00:00 0001" ∧
    (⟨1, -18000⟩ : Time).FormatANSIC = "Wed Dec 31 19:00:01 1969" :=
  ⟨by decide, by decide, by decide, by decide, by decide⟩

/-- The ANSIC rendering is never the empty string. -/
theorem FormatANSIC_ne_empty (t : Time) : t.FormatANSIC ≠ "" := by
  intro h
  have hl := congrArg String.length h
  unfold Time.FormatANSIC at hl
  simp only [String.length_append] at hl
  have h1 : " ".length = 1 := rfl
  have h0 : "".length = 0 := rfl
  omega

/-- C1: `expiredTime t` is the empty string when `t.Unix()` is at most 0 and is
`t.Format(time.ANSIC)` when `t.Unix()` is positive; the result is empty exactly
for the epoch-or-earlier values, so no such value is ever shown as a date. -/
theorem expiredTime_rule (t : Time) :
    (t.Unix ≤ 0 → expiredTime t = "") ∧
    (0 < t.Unix → expiredTime t = t.FormatANSIC) ∧
    (expiredTime t = "" ↔ t.Unix ≤ 0) := by
  unfold expiredTime
  by_cases h : t.Unix > 0
  · have hn : ¬ t.Unix ≤ 0 := by omega
    simp [h, hn, FormatANSIC_ne_empty]
  · have hn : t.Unix ≤ 0 := by omega
    simp [h, hn]

theorem expiredTime_rule_witness :
    expiredTime ⟨0, 0⟩ = "" ∧ expiredTime ⟨-62135596800, 0⟩ = "" ∧
    expiredTime ⟨1700000000, 0⟩ = "Tue Nov 14 22:13:20 2023" :=
  ⟨(expiredTime_rule ⟨0, 0⟩).1 (by decide),
   (expiredTime_rule ⟨-62135596800, 0⟩).1 (by decide),
   ((expiredTime_rule ⟨1700000000, 0⟩).2.1 (by decide)).trans (by decide)⟩

/-- C2, as stated, fails: for a record and a summary whose created and updated
timestamps have Unix value 0, the created and updated fields are written as the
epoch date, not as the empty string; only the expiry field is empty. -/
theorem created_updated_epoch_is_dated :
    epochInfo.Created.Unix ≤ 0 ∧ epochInfo.LastUpdated.Unix ≤ 0 ∧
    epochRequest.Created.Unix ≤ 0 ∧ epochRequest.LastUpdated.Unix ≤ 0 ∧
    (stdoutOf (printRequestInfo epochInfo))[3]? = some "Created:\tThu Jan  1 00:00:00 1970\n" ∧
    (stdoutOf (printRequestInfo epochInfo))[4]? = some "Updated:\tThu Jan  1 00:00:00 1970\n" ∧
    (stdoutOf (printRequestInfo epochInfo))[5]? = some "Expires:\t\n" ∧
    "Created:\t\n" ∉ stdoutOf (printRequestInfo epochInfo) ∧
    "Updated:\t\n" ∉ stdoutOf (printRequestInfo epochInfo) ∧
    stdoutOf (printRequest epochRequest) =
      ["example\tR1\texample\tApproved\tThu Jan  1 00:00:00 1970\tThu Jan  1 00:00:00 1970\t\tfalse\n"] := by
  have hf : (⟨0, 0⟩ : Time).FormatANSIC = "Thu Jan  1 00:00:00 1970" := by decide
  have he : expiredTime ⟨0, 0⟩ = "" := by decide
  have hout : stdoutOf (printRequestInfo epochInfo) =
      ["ID:\tR1\n", "TLD:\texample (example)\n", "Status:\tApproved\n",
        "Created:\tThu Jan  1 00:00:00 1970\n", "Updated:\tThu Jan  1 00:00:00 1970\n",
        "Expires:\t\n", "AutoRenew:\ttrue\n", "Extensible:\tfalse\n",
        "ExtensionInProcess:\tfalse\n", "Cancellable:\tfalse\n", "Request IP:\t192.0.2.1\n",
        "FTP IPs:\t []\n", "Reason:\t\n", "History:\n"] := by
    simp [stdoutOf, printRequestInfo_apply, World.init, infoLines, epochInfo, hf, he, fmtBool,
      fmtStrings, String.intercalate]
  have hrow : stdoutOf (printRequest epochRequest) =
      ["example\tR1\texample\tApproved\tThu Jan  1 00:00:00 1970\tThu Jan  1 00:00:00 1970\t\tfalse\n"] := by
    simp [stdoutOf, printRequest_apply, World.init, requestRow, epochRequest, hf, he, fmtBool]
  rw [hout, hrow]
  refine ⟨by decide, by decide, by decide, by decide, rfl, rfl, rfl, by decide, by decide, rfl⟩

/-- C2, amended: the empty-string rule is applied to the expiry field only.  In
the report of every record whose `TLD` is present and in the row of every
summary the created and updated timestamps are written as `Format(time.ANSIC)`
whatever their Unix value, which is never the empty string, while the expiry is
written by `expiredTime`. -/
theorem created_updated_always_dated (info : RequestsInfo) (tld : TLDStatus)
    (request : Request) (hT : info.TLD = some tld) :
    (stdoutOf (printRequestInfo info))[3]?
      = some ("Created:\t" ++ info.Created.FormatANSIC ++ "\n") ∧
    (stdoutOf (printRequestInfo info))[4]?
      = some ("Updated:\t" ++ info.LastUpdated.FormatANSIC ++ "\n") ∧
    (stdoutOf (printRequestInfo info))[5]?
      = some ("Expires:\t" ++ (if info.Expired.Unix ≤ 0 then "" else info.Expired.FormatANSIC)
          ++ "\n") ∧
    stdoutOf (printRequest request) =
      [request.TLD ++ "\t" ++ request.RequestID ++ "\t" ++ request.ULabel ++ "\t" ++
        request.Status ++ "\t" ++ request.Created.FormatANSIC ++ "\t" ++
        request.LastUpdated.FormatANSIC ++ "\t" ++
        (if request.Expired.Unix ≤ 0 then "" else request.Expired.FormatANSIC) ++ "\t" ++
        fmtBool request.SFTP ++ "\n"] ∧
    info.Created.FormatANSIC ≠ "" ∧ info.LastUpdated.FormatANSIC ≠ "" ∧
    request.Created.FormatANSIC ≠ "" ∧ request.LastUpdated.FormatANSIC ≠ "" := by
  have he : ∀ t : Time, expiredTime t = if t.Unix ≤ 0 then "" else t.FormatANSIC := by
    intro t
    unfold expiredTime
    by_cases h : t.Unix > 0
    · have hn : ¬ t.Unix ≤ 0 := by omega
      simp [h, hn]
    · have hn : t.Unix ≤ 0 := by omega
      simp [h, hn]
  refine ⟨?_, ?_, ?_, ?_, FormatANSIC_ne_empty _, FormatANSIC_ne_empty _,
    FormatANSIC_ne_empty _, FormatANSIC_ne_empty _⟩
  · simp [stdoutOf, printRequestInfo_apply, World.init, infoLines, hT]
  · simp [stdoutOf, printRequestInfo_apply, World.init, infoLines, hT]
  · simp [stdoutOf, printRequestInfo_apply, World.init, infoLines, he, hT]
  · simp [stdoutOf, printRequest_apply, World.init, requestRow, he]

theorem created_updated_always_dated_witness :
    sampleInfo.TLD = some ⟨"example", "example"⟩ ∧
    (stdoutOf (printRequestInfo sampleInfo))[3]? = some "Created:\tTue Nov 14 22:13:20 2023\n" ∧
    (stdoutOf (printRequestInfo sampleInfo))[4]? = some "Updated:\tTue Nov 14 22:13:20 2023\n" ∧
    (stdoutOf (printRequestInfo sampleInfo))[5]? = some "Expires:\t\n" ∧
    stdoutOf (printRequest epochRequest) =
      ["example\tR1\texample\tApproved\tThu Jan  1 00:00:00 1970\tThu Jan  1 00:00:00 1970\t\tfalse\n"] :=
  have t := created_updated_always_dated sampleInfo ⟨"example", "example"⟩ epochRequest rfl
  have h0 : (⟨0, 0⟩ : Time).FormatANSIC = "Thu Jan  1 00:00:00 1970" := by decide
  have h1 : (⟨1700000000, 0⟩ : Time).FormatANSIC = "Tue Nov 14 22:13:20 2023" := by decide
  ⟨rfl,
   t.1.trans (by simp [sampleInfo, epochInfo, h1]),
   t.2.1.trans (by simp [sampleInfo, epochInfo, h1]),
   t.2.2.1.trans (by simp [sampleInfo, epochInfo, Time.Unix]),
   t.2.2.2.1.trans (by simp [epochRequest, h0, Time.Unix, fmtBool])⟩

/-! ## The listing report -/

theorem sum_newlines_rows (requests : List Request)
    (h : ∀ r ∈ requests, newlines r.TLD = 0 ∧ newlines r.RequestID = 0 ∧
      newlines r.ULabel = 0 ∧ newlines r.Status = 0) :
    ((requests.map requestRow).map newlines).sum = requests.length := by
  induction requests with
  | nil => rfl
  | cons r rs ih =>
    have hr := h r (List.mem_cons_self r rs)
    have hrs := ih fun x hx => h x (List.mem_cons_of_mem r hx)
    simp only [List.map_cons, List.sum_cons, List.length_cons, newlines_requestRow, hrs]
    omega

/-- C3, as stated, fails: for the one-element listing `[newlineRequest]`, whose
status text holds a newline, `listAll` makes two writes but the text on
standard output has three newline-terminated lines, not `1 + 1`. -/
theorem listAll_newline_field_three_lines :
    1 ≤ [newlineRequest].length ∧
    (sampleClient [newlineRequest]).GetAllRequests .RequestAll = .ok [newlineRequest] ∧
    ∃ w', listAll (sampleFlags "" "") (sampleClient [newlineRequest]) World.init = .ret () w' ∧
      String.join w'.stdout =
        "TLD\tID\tUnicodeTLD\tStatus\tCreated\tUpdated\tExpires\tSFTP\ncom\tR1\tcom\tx\ny\tTue Nov 14 22:13:20 2023\tTue Nov 14 22:13:20 2023\t\tfalse\n" ∧
      newlines (String.join w'.stdout) = 3 ∧
      newlines (String.join w'.stdout) ≠ 1 + [newlineRequest].length := by
  have h1 : (⟨1700000000, 0⟩ : Time).FormatANSIC = "Tue Nov 14 22:13:20 2023" := by decide
  have he : expiredTime ⟨0, 0⟩ = "" := by decide
  have hout : listLines [newlineRequest] =
      ["TLD\tID\tUnicodeTLD\tStatus\tCreated\tUpdated\tExpires\tSFTP\n",
       "com\tR1\tcom\tx\ny\tTue Nov 14 22:13:20 2023\tTue Nov 14 22:13:20 2023\t\tfalse\n"] := by
    simp [listLines, requestRow, newlineRequest, h1, he, fmtBool]
  refine ⟨by decide, rfl, _, by rw [listAll_apply]; rfl, ?_, ?_, ?_⟩
  · simp only [World.init, List.nil_append, hout]
    decide
  · simp only [World.init, List.nil_append, hout]
    decide
  · simp only [World.init, List.nil_append, hout]
    decide

/-- C3, amended: when the listing returns `n ≥ 1` summaries, `listAll` returns
normally having made exactly `1 + n` writes after what was already on standard
output: the header line, then one tab-separated, newline-terminated row per
summary, the `i`-th row being what `printRequest` writes for the `i`-th
summary.  When no string field of a summary contains a newline, these are
exactly `1 + n` output lines: the text written has `1 + n` newline characters. -/
theorem listAll_header_and_rows (f : Flags) (client : Client) (requests : List Request)
    (w : World) (hn : 1 ≤ requests.length)
    (hl : client.GetAllRequests .RequestAll = .ok requests) :
    ∃ w', listAll f client w = .ret () w' ∧
      w'.stdout = w.stdout ++
        ("TLD\tID\tUnicodeTLD\tStatus\tCreated\tUpdated\tExpires\tSFTP\n" ::
          requests.map fun r =>
            r.TLD ++ "\t" ++ r.RequestID ++ "\t" ++ r.ULabel ++ "\t" ++ r.Status ++ "\t" ++
            r.Created.FormatANSIC ++ "\t" ++ r.LastUpdated.FormatANSIC ++ "\t" ++
            expiredTime r.Expired ++ "\t" ++ fmtBool r.SFTP ++ "\n") ∧
      w'.stdout.length = w.stdout.length + (1 + requests.length) ∧
      w'.stdout[w.stdout.length]?
        = some "TLD\tID\tUnicodeTLD\tStatus\tCreated\tUpdated\tExpires\tSFTP\n" ∧
      (∀ i (hi : i < requests.length), ∃ row,
        w'.stdout[w.stdout.length + 1 + i]? = some row ∧
        stdoutOf (printRequest requests[i]) = [row]) ∧
      ((∀ r ∈ requests, newlines r.TLD = 0 ∧ newlines r.RequestID = 0 ∧
          newlines r.ULabel = 0 ∧ newlines r.Status = 0) →
        newlines (String.join w'.stdout)
          = newlines (String.join w.stdout) + (1 + requests.length)) := by
  have hpos : requests.length > 0 := by omega
  refine ⟨_, by rw [listAll_apply, hl], ?_, ?_, ?_, ?_, ?_⟩
  · simp [listLines, hpos, requestRow]
  · simp [listLines, hpos, Nat.add_comm]
  · simp only [listLines, hpos, if_true]
    rw [List.getElem?_append_right (Nat.le_refl _)]
    simp
  · intro i hi
    refine ⟨requestRow requests[i], ?_, ?_⟩
    · simp only [listLines, hpos, if_true, Nat.add_assoc]
      rw [List.getElem?_append_right (Nat.le_add_right _ _)]
      simp [Nat.add_comm 1 i, hi]
    · simp [stdoutOf, printRequest_apply, World.init]
  · intro hclean
    have hh : newlines "TLD\tID\tUnicodeTLD\tStatus\tCreated\tUpdated\tExpires\tSFTP\n" = 1 :=
      by decide
    simp only [listLines, hpos, if_true, newlines_join, List.map_append, List.sum_append,
      List.map_cons, List.sum_cons, hh, sum_newlines_rows requests hclean]

theorem listAll_header_and_rows_witness :
    1 ≤ threeRequests.length ∧
    (sampleClient threeRequests).GetAllRequests .RequestAll = .ok threeRequests ∧
    ∃ w', listAll (sampleFlags "" "") (sampleClient threeRequests) World.init = .ret () w' ∧
      w'.stdout.length = 4 ∧
      w'.stdout[0]? = some "TLD\tID\tUnicodeTLD\tStatus\tCreated\tUpdated\tExpires\tSFTP\n" ∧
      newlines (String.join w'.stdout) = 4 :=
  ⟨by decide, rfl,
    match listAll_header_and_rows (sampleFlags "" "") (sampleClient threeRequests) threeRequests
      World.init (by decide) rfl with
    | ⟨w', h1, _, h3, h4, _, h6⟩ => ⟨w', h1, h3, h4, h6 (by decide)⟩⟩

/-- C4: when the listing succeeds with no summaries, `listAll` returns normally
and standard output is left as it was (no header, no row); a run that reaches
this listing ends with exit status 0 and has written nothing. -/
theorem listAll_empty_silent (N : String → String → Client) (version : String) (f : Flags)
    (hl : (N f.username f.password).GetAllRequests .RequestAll = .ok []) :
    (∀ w, ∃ w', listAll f (N f.username f.password) w = .ret () w' ∧ w'.stdout = w.stdout) ∧
    ((Call.GetAllRequests .RequestAll, true) ∈ (run N version f).2.calls →
      (run N version f).1 = 0 ∧ (run N version f).2.stdout = []) := by
  constructor
  · intro w
    refine ⟨_, by rw [listAll_apply, hl], ?_⟩
    simp [listLines]
  · rw [run_eq]
    by_cases hv : f.showVersion = true
    · simp [hv]
    by_cases hc : f.username = "" ∨ f.password = ""
    · simp [hv, hc]
    simp only [hv, hc, if_false, Bool.false_eq_true]
    cases (N f.username f.password).Authenticate with
    | error err => simp
    | ok u =>
      by_cases hz : f.zone = ""
      · by_cases hi : f.id = ""
        · simp [hz, hi, finish, hl, listLines]
        · simp only [hz, ne_eq, not_true_eq_false, if_false, finish, hi]
          cases (N f.username f.password).GetRequestInfo f.id <;> simp [report_calls]
      · simp only [hz, ne_eq, not_false_eq_true, if_true]
        cases (N f.username f.password).GetZoneRequestID f.zone with
        | error err => simp
        | ok zoneID =>
          by_cases hi : zoneID = ""
          · simp [hi, finish, hl, listLines]
          · simp only [finish, hi, if_false]
            cases (N f.username f.password).GetRequestInfo zoneID <;> simp [report_calls]

theorem listAll_empty_silent_witness :
    (sampleClient []).GetAllRequests .RequestAll = .ok [] ∧
    (run (fun _ _ => sampleClient []) "unknown" (sampleFlags "" "")).1 = 0 ∧
    (run (fun _ _ => sampleClient []) "unknown" (sampleFlags "" "")).2.stdout = [] :=
  ⟨rfl, (listAll_empty_silent (fun _ _ => sampleClient []) "unknown" (sampleFlags "" "") rfl).2
    (by simp [run_eq, sampleFlags, sampleClient, finish, report_calls])⟩

/-! ## Resolution of the selector and the report driver -/

/-- C5, the code at the failing input: with `-zone example` and a lookup that
succeeds with the empty identifier, the run makes the lookup and then calls the
listing operation and prints the listing; no single-record fetch is made. -/
theorem lookup_empty_id_lists_all :
    run (fun _ _ => emptyIdClient) "unknown"
        { username := "user", password := "secret", verbose := false, id := "",
          zone := "example", showVersion := false }
      = (0,
         { stdout :=
             ["TLD\tID\tUnicodeTLD\tStatus\tCreated\tUpdated\tExpires\tSFTP\n",
              "example\tR1\texample\tApproved\tThu Jan  1 00:00:00 1970\tThu Jan  1 00:00:00 1970\t\tfalse\n"]
           stderr := []
           calls := [(.Authenticate, true), (.GetZoneRequestID "example", true),
                     (.GetAllRequests .RequestAll, true)] }) := by
  have hf : (⟨0, 0⟩ : Time).FormatANSIC = "Thu Jan  1 00:00:00 1970" := by decide
  have he : expiredTime ⟨0, 0⟩ = "" := by decide
  simp [run_eq, emptyIdClient, finish, listLines, requestRow, epochRequest, vLog, hf, he,
    fmtBool]

/-- The single-record path after a lookup: with a non-empty
domain name, valid credentials and a successful authentication, a lookup that
succeeds with a non-empty identifier is followed by exactly one call, the
single-record fetch for that identifier. -/
theorem lookup_nonempty_id_fetches (N : String → String → Client) (version : String)
    (f : Flags) (zoneID : String) (hv : f.showVersion = false)
    (hu : f.username ≠ "") (hp : f.password ≠ "") (hz : f.zone ≠ "")
    (ha : (N f.username f.password).Authenticate = .ok ())
    (hl : (N f.username f.password).GetZoneRequestID f.zone = .ok zoneID)
    (hne : zoneID ≠ "") :
    (run N version f).2.calls =
      [(.Authenticate, true), (.GetZoneRequestID f.zone, true),
       (.GetRequestInfo zoneID, ((N f.username f.password).GetRequestInfo zoneID).isOk)] := by
  rw [run_eq]
  simp only [hv, hu, hp, hz, ha, hl, hne, finish, or_self, if_false, ne_eq, not_false_eq_true,
    if_true, Bool.false_eq_true]
  cases (N f.username f.password).GetRequestInfo zoneID <;>
    simp [Except.isOk, Except.toBool, report_calls]

/-- C6, the code at the failing input: with `-id R1 -zone example`, a client
that knows request `R1`, and a lookup that succeeds with the empty identifier,
no single-record fetch is issued at all, neither for the identifier the lookup
returned nor for `R1`; the run calls the listing operation and prints the
listing. -/
theorem zone_with_id_empty_lookup_lists_all :
    emptyLookupClient.GetZoneRequestID "example" = .ok "" ∧
    emptyLookupClient.GetRequestInfo "R1" = .ok epochInfo ∧
    run (fun _ _ => emptyLookupClient) "unknown"
        { username := "user", password := "secret", verbose := false, id := "R1",
          zone := "example", showVersion := false }
      = (0,
         { stdout :=
             ["TLD\tID\tUnicodeTLD\tStatus\tCreated\tUpdated\tExpires\tSFTP\n",
              "example\tR1\texample\tApproved\tThu Jan  1 00:00:00 1970\tThu Jan  1 00:00:00 1970\t\tfalse\n"]
           stderr := []
           calls := [(.Authenticate, true), (.GetZoneRequestID "example", true),
                     (.GetAllRequests .RequestAll, true)] }) := by
  have hf : (⟨0, 0⟩ : Time).FormatANSIC = "Thu Jan  1 00:00:00 1970" := by decide
  have he : expiredTime ⟨0, 0⟩ = "" := by decide
  refine ⟨rfl, rfl, ?_⟩
  simp [run_eq, emptyLookupClient, sampleClient, finish, listLines, requestRow, epochRequest,
    vLog, hf, he, fmtBool]

/-- With a non-empty domain name the explicit ID plays no part.  The run is
the same whatever explicit ID is supplied; every single-record fetch that is
made is made for the identifier the domain lookup returned, after exactly the
authentication and that lookup; and when the lookup returns a non-empty
identifier the fetch for it is made. -/
theorem zone_overrides_id (N : String → String → Client) (version : String) (f : Flags)
    (hz : f.zone ≠ "") :
    (∀ id', run N version { f with id := id' } = run N version f) ∧
    (∀ x b, (Call.GetRequestInfo x, b) ∈ (run N version f).2.calls →
      (N f.username f.password).GetZoneRequestID f.zone = .ok x ∧
      (run N version f).2.calls =
        [(.Authenticate, true), (.GetZoneRequestID f.zone, true), (.GetRequestInfo x, b)]) ∧
    (∀ zoneID, (Call.GetZoneRequestID f.zone, true) ∈ (run N version f).2.calls →
      (N f.username f.password).GetZoneRequestID f.zone = .ok zoneID → zoneID ≠ "" →
      ∃ b, (Call.GetRequestInfo zoneID, b) ∈ (run N version f).2.calls) := by
  refine ⟨?_, ?_, ?_⟩
  · intro id'
    simp only [run_eq, hz, ne_eq, not_false_eq_true, if_true, vLog, flagErrors, finish]
  · intro x b
    rw [run_eq]
    by_cases hv : f.showVersion = true
    · simp [hv]
    by_cases hc : f.username = "" ∨ f.password = ""
    · simp [hv, hc]
    simp only [hv, hc, if_false, Bool.false_eq_true, hz, ne_eq, not_false_eq_true, if_true]
    cases (N f.username f.password).Authenticate with
    | error err => simp
    | ok u =>
      cases (N f.username f.password).GetZoneRequestID f.zone with
      | error err => simp
      | ok zoneID =>
        by_cases hi : zoneID = ""
        · simp only [finish, hi, if_true]
          cases (N f.username f.password).GetAllRequests .RequestAll <;> simp
        · simp only [finish, hi, if_false]
          cases (N f.username f.password).GetRequestInfo zoneID <;>
            · simp [report_calls]
              intro h1 h2
              simp [h1, h2]
  · intro zoneID
    rw [run_eq]
    by_cases hv : f.showVersion = true
    · simp [hv]
    by_cases hc : f.username = "" ∨ f.password = ""
    · simp [hv, hc]
    simp only [hv, hc, if_false, Bool.false_eq_true, hz, ne_eq, not_false_eq_true, if_true]
    cases (N f.username f.password).Authenticate with
    | error err => simp
    | ok u =>
      cases (N f.username f.password).GetZoneRequestID f.zone with
      | error err => simp
      | ok zoneID' =>
        intro _ heq hne
        have heq' : zoneID' = zoneID := by simpa using heq
        subst heq'
        simp only [finish, hne, if_false]
        cases (N f.username f.password).GetRequestInfo zoneID' <;> simp [report_calls]

/-- C7: in every run in which a client call fails, the process ends with exit
status 1, nothing has been written to standard output, the failing call is the
last client call of the run and every call before it succeeded; when the
failing call is the authentication, it is the only client call. -/
theorem client_failure_aborts (N : String → String → Client) (version : String) (f : Flags)
    (c : Call) (h : (c, false) ∈ (run N version f).2.calls) :
    (run N version f).1 = 1 ∧
    (run N version f).2.stdout = [] ∧
    (∃ pre, (run N version f).2.calls = pre ++ [(c, false)] ∧ ∀ x ∈ pre, x.2 = true) ∧
    (c = .Authenticate → (run N version f).2.calls = [(.Authenticate, false)]) := by
  revert h
  rw [run_eq]
  by_cases hv : f.showVersion = true
  · simp [hv]
  by_cases hc : f.username = "" ∨ f.password = ""
  · simp [hv, hc]
  simp only [hv, hc, if_false, Bool.false_eq_true]
  cases (N f.username f.password).Authenticate with
  | error err =>
    intro h
    have hcall : c = .Authenticate := by simpa using h
    subst hcall
    exact ⟨rfl, rfl, ⟨[], by simp⟩, fun _ => rfl⟩
  | ok u =>
    by_cases hz : f.zone = ""
    · simp only [hz, ne_eq, not_true_eq_false, if_false, finish]
      by_cases hi : f.id = ""
      · simp only [hi, if_true]
        cases (N f.username f.password).GetAllRequests .RequestAll with
        | error err =>
          intro h
          have hcall : c = .GetAllRequests .RequestAll := by simpa using h
          subst hcall
          exact ⟨rfl, rfl, ⟨[(.Authenticate, true)], by simp⟩, by simp⟩
        | ok requests => simp
      · simp only [hi, if_false]
        cases (N f.username f.password).GetRequestInfo f.id with
        | error err =>
          intro h
          have hcall : c = .GetRequestInfo f.id := by simpa using h
          subst hcall
          exact ⟨rfl, rfl, ⟨[(.Authenticate, true)], by simp⟩, by simp⟩
        | ok info => simp [report_calls]
    · simp only [hz, ne_eq, not_false_eq_true, if_true]
      cases (N f.username f.password).GetZoneRequestID f.zone with
      | error err =>
        intro h
        have hcall : c = .GetZoneRequestID f.zone := by simpa using h
        subst hcall
        exact ⟨rfl, rfl, ⟨[(.Authenticate, true)], by simp⟩, by simp⟩
      | ok zoneID =>
        simp only [finish]
        by_cases hi : zoneID = ""
        · simp only [hi, if_true]
          cases (N f.username f.password).GetAllRequests .RequestAll with
          | error err =>
            intro h
            have hcall : c = .GetAllRequests .RequestAll := by simpa using h
            subst hcall
            exact ⟨rfl, rfl,
              ⟨[(.Authenticate, true), (.GetZoneRequestID f.zone, true)], by simp⟩, by simp⟩
          | ok requests => simp
        · simp only [hi, if_false]
          cases (N f.username f.password).GetRequestInfo zoneID with
          | error err =>
            intro h
            have hcall : c = .GetRequestInfo zoneID := by simpa using h
            subst hcall
            exact ⟨rfl, rfl,
              ⟨[(.Authenticate, true), (.GetZoneRequestID f.zone, true)], by simp⟩, by simp⟩
          | ok info => simp [report_calls]

theorem client_failure_aborts_witness :
    (Call.Authenticate, false)
      ∈ (run (fun _ _ => badLoginClient) "unknown" (sampleFlags "" "example")).2.calls ∧
    (run (fun _ _ => badLoginClient) "unknown" (sampleFlags "" "example")).1 = 1 ∧
    (run (fun _ _ => badLoginClient) "unknown" (sampleFlags "" "example")).2.stdout = [] ∧
    (run (fun _ _ => badLoginClient) "unknown" (sampleFlags "" "example")).2.calls
      = [(.Authenticate, false)] :=
  have h : (Call.Authenticate, false)
      ∈ (run (fun _ _ => badLoginClient) "unknown" (sampleFlags "" "example")).2.calls := by
    simp [run_eq, sampleFlags, badLoginClient, sampleClient]
  have t := client_failure_aborts (fun _ _ => badLoginClient) "unknown"
    (sampleFlags "" "example") .Authenticate h
  ⟨h, t.1, t.2.1, t.2.2.2 rfl⟩

/-! ## The single-record report -/

/-- C8, the code at the failing input: for a record whose `TLD` pointer is nil,
`printRequestInfo` writes the identifier line and then panics on the nil
dereference, so none of the remaining lines and no history is written; the run
that fetched the record ends with exit status 2. -/
theorem printRequestInfo_nil_TLD_panics :
    nilTLDInfo.TLD = none ∧
    printRequestInfo nilTLDInfo World.init
      = .panic "panic: runtime error: invalid memory address or nil pointer dereference"
          { stdout := ["ID:\tR1\n"], stderr := [], calls := [] } ∧
    run (fun _ _ => nilTLDClient) "unknown"
        { username := "user", password := "secret", verbose := false, id := "R1",
          zone := "", showVersion := false }
      = (2,
         { stdout := ["ID:\tR1\n"]
           stderr := ["panic: runtime error: invalid memory address or nil pointer dereference"]
           calls := [(.Authenticate, true), (.GetRequestInfo "R1", true)] }) := by
  refine ⟨rfl, ?_, ?_⟩
  · simp [printRequestInfo_apply, nilTLDInfo, epochInfo, World.init, nilDereference]
  · simp [run_eq, nilTLDClient, sampleClient, finish, report, nilTLDInfo, epochInfo, vLog,
      nilDereference]

/-- The report of a record whose `TLD` is present: `printRequestInfo` returns
normally having written, after what was already on standard output, the
fourteen lines identifier, TLD with the unicode label in parentheses, status,
created, updated, expires, auto-renew, extensible, extension-in-progress,
cancellable, origin IP, transfer IP list, reason and the `History:` heading, in
this order, followed by one line per history event in the order of the record,
each a tab, the timestamp, a tab, the action and a newline.  For an expiry with
Unix value 0 the expires line is `Expires:` and a tab with nothing before the
newline. -/
theorem printRequestInfo_layout (info : RequestsInfo) (tld : TLDStatus) (w : World)
    (hT : info.TLD = some tld) :
    printRequestInfo info w = .ret () { w with stdout := w.stdout ++
      ([ "ID:\t" ++ info.RequestID ++ "\n",
         "TLD:\t" ++ tld.TLD ++ " (" ++ tld.ULabel ++ ")\n",
         "Status:\t" ++ info.Status ++ "\n",
         "Created:\t" ++ info.Created.FormatANSIC ++ "\n",
         "Updated:\t" ++ info.LastUpdated.FormatANSIC ++ "\n",
         "Expires:\t" ++ expiredTime info.Expired ++ "\n",
         "AutoRenew:\t" ++ (if info.AutoRenew then "true" else "false") ++ "\n",
         "Extensible:\t" ++ (if info.Extensible then "true" else "false") ++ "\n",
         "ExtensionInProcess:\t" ++ (if info.ExtensionInProcess then "true" else "false")
           ++ "\n",
         "Cancellable:\t" ++ (if info.Cancellable then "true" else "false") ++ "\n",
         "Request IP:\t" ++ info.RequestIP ++ "\n",
         "FTP IPs:\t" ++ " " ++ ("[" ++ " ".intercalate info.FtpIps ++ "]") ++ "\n",
         "Reason:\t" ++ info.Reason ++ "\n",
         "History:\n" ] ++
       info.History.map fun event =>
         "\t" ++ event.Timestamp.FormatANSIC ++ "\t" ++ event.Action ++ "\n") } ∧
    (info.Expired.Unix = 0 → "Expires:\t" ++ expiredTime info.Expired ++ "\n" = "Expires:\t\n") := by
  constructor
  · rw [printRequestInfo_apply, hT]
    rfl
  · intro h
    simp [expiredTime, h]

theorem printRequestInfo_layout_witness :
    sampleInfo.TLD = some ⟨"example", "example"⟩ ∧
    sampleInfo.Expired.Unix = 0 ∧ sampleInfo.AutoRenew = true ∧
    printRequestInfo sampleInfo World.init = .ret ()
      { stdout :=
          ["ID:\tR1\n", "TLD:\texample (example)\n", "Status:\tApproved\n",
           "Created:\tTue Nov 14 22:13:20 2023\n", "Updated:\tTue Nov 14 22:13:20 2023\n",
           "Expires:\t\n", "AutoRenew:\ttrue\n", "Extensible:\tfalse\n",
           "ExtensionInProcess:\tfalse\n", "Cancellable:\tfalse\n",
           "Request IP:\t192.0.2.1\n", "FTP IPs:\t [192.0.2.10 198.51.100.7]\n",
           "Reason:\t\n", "History:\n",
           "\tTue Nov 14 22:13:20 2023\tSubmitted\n", "\tTue Nov 14 22:13:21 2023\tApproved\n"]
        stderr := []
        calls := [] } :=
  ⟨rfl, by decide, rfl,
    (printRequestInfo_layout sampleInfo ⟨"example", "example"⟩ World.init rfl).1.trans (by
      have h0 : (⟨1700000000, 0⟩ : Time).FormatANSIC = "Tue Nov 14 22:13:20 2023" := by decide
      have h1 : (⟨1700000001, 0⟩ : Time).FormatANSIC = "Tue Nov 14 22:13:21 2023" := by decide
      have he : expiredTime ⟨0, 0⟩ = "" := by decide
      simp [sampleInfo, epochInfo, World.init, h0, h1, he, String.intercalate,
        String.intercalate.go])⟩

/-! ## Runs without a domain name -/

/-- C9: with neither an explicit ID nor a domain name, no run calls the domain
lookup or the single-record fetch, and after a successful authentication the
one remaining client call is the listing with the filter `RequestAll`. -/
theorem no_selector_lists_all (N : String → String → Client) (version : String) (f : Flags)
    (hid : f.id = "") (hz : f.zone = "") :
    (∀ z b, (Call.GetZoneRequestID z, b) ∉ (run N version f).2.calls) ∧
    (∀ x b, (Call.GetRequestInfo x, b) ∉ (run N version f).2.calls) ∧
    ((Call.Authenticate, true) ∈ (run N version f).2.calls →
      ∃ b, (run N version f).2.calls =
        [(.Authenticate, true), (.GetAllRequests .RequestAll, b)]) := by
  rw [run_eq]
  by_cases hv : f.showVersion = true
  · simp [hv]
  by_cases hc : f.username = "" ∨ f.password = ""
  · simp [hv, hc]
  simp only [hv, hc, if_false, Bool.false_eq_true, hz, hid, ne_eq, not_true_eq_false, finish,
    if_true]
  cases (N f.username f.password).Authenticate with
  | error err => simp
  | ok u => cases (N f.username f.password).GetAllRequests .RequestAll <;> simp

theorem no_selector_lists_all_witness :
    (sampleFlags "" "").id = "" ∧ (sampleFlags "" "").zone = "" ∧
    ∃ b, (run (fun _ _ => sampleClient threeRequests) "unknown" (sampleFlags "" "")).2.calls =
      [(.Authenticate, true), (.GetAllRequests .RequestAll, b)] :=
  ⟨rfl, rfl,
    (no_selector_lists_all (fun _ _ => sampleClient threeRequests) "unknown"
      (sampleFlags "" "") rfl rfl).2.2
      (by simp [run_eq, sampleFlags, sampleClient, finish, report_calls])⟩

/-- C10: with a non-empty explicit ID and no domain name, no run calls the
domain lookup or the listing, and after a successful authentication the one
remaining client call is the single-record fetch for the supplied ID. -/
theorem explicit_id_fetches_it (N : String → String → Client) (version : String) (f : Flags)
    (hid : f.id ≠ "") (hz : f.zone = "") :
    (∀ z b, (Call.GetZoneRequestID z, b) ∉ (run N version f).2.calls) ∧
    (∀ flt b, (Call.GetAllRequests flt, b) ∉ (run N version f).2.calls) ∧
    ((Call.Authenticate, true) ∈ (run N version f).2.calls →
      ∃ b, (run N version f).2.calls =
        [(.Authenticate, true), (.GetRequestInfo f.id, b)]) := by
  rw [run_eq]
  by_cases hv : f.showVersion = true
  · simp [hv]
  by_cases hc : f.username = "" ∨ f.password = ""
  · simp [hv, hc]
  simp only [hv, hc, if_false, Bool.false_eq_true, hz, hid, ne_eq, not_true_eq_false, finish]
  cases (N f.username f.password).Authenticate with
  | error err => simp
  | ok u => cases (N f.username f.password).GetRequestInfo f.id <;> simp [report_calls]

theorem explicit_id_fetches_it_witness :
    (sampleFlags "R1" "").id ≠ "" ∧ (sampleFlags "R1" "").zone = "" ∧
    ∃ b, (run (fun _ _ => sampleClient threeRequests) "unknown" (sampleFlags "R1" "")).2.calls =
      [(.Authenticate, true), (.GetRequestInfo "R1", b)] :=
  ⟨by decide, rfl,
    (explicit_id_fetches_it (fun _ _ => sampleClient threeRequests) "unknown"
      (sampleFlags "R1" "") (by decide) rfl).2.2
      (by simp [run_eq, sampleFlags, sampleClient, finish, report_calls])⟩

end Czds
